import Mathlib

/-!
Verification of the Alertsify order-execution and position-reconciliation
engine, as embedded from the repository's documentation code samples:
the oversell trigger and aggregate trigger (`docs/database/schema.md`),
the STC execution flow (`docs/flows/stc-execution.md`), the order sync
service (`docs/flows/order-sync.md`) and the copy-trading service.
Quantities are naturals (SQL INTEGER columns), money is `ℚ`
(DECIMAL columns), timestamps are naturals.
-/

namespace Alertsify

/-- Order direction: `action IN ('buy','sell')` on the `trades` table. -/
inductive Action where
  | buy
  | sell
  deriving Repr, DecidableEq

/-- Child-order status: `status IN ('pending','partial','filled','cancelled','rejected')`.
The `'partial'` value is spelled `partFilled` here. -/
inductive TradeStatus where
  | pending
  | partFilled
  | filled
  | cancelled
  | rejected
  deriving Repr, DecidableEq

/-- Provenance: `source IN ('manual','copy','auto')`. -/
inductive Source where
  | manual
  | copy
  | auto
  deriving Repr, DecidableEq

/-- One row of the `trades` table (a child order sent to the broker). -/
structure Trade where
  id : Nat
  parentTradeId : Nat
  brokerOrderId : Option Nat := none
  action : Action
  quantity : Nat
  filledQuantity : Nat := 0
  filledPrice : ℚ := 0
  status : TradeStatus := .pending
  source : Source := .manual
  pnl : Option ℚ := none
  pnlPercent : Option ℚ := none
  deriving Repr, DecidableEq

/-- Contribution of one trade to the filled buy quantity
(`action = 'buy' AND status = 'filled' THEN filled_quantity`). -/
def boughtQty (t : Trade) : Int :=
  if t.action = .buy ∧ t.status = .filled then (t.filledQuantity : Int) else 0

/-- Contribution of one trade to the filled sell quantity
(`action = 'sell' AND status = 'filled' THEN filled_quantity`). -/
def soldQty (t : Trade) : Int :=
  if t.action = .sell ∧ t.status = .filled then (t.filledQuantity : Int) else 0

/-- Contribution of one trade to the reserved pending sell quantity
(`action = 'sell' AND status = 'pending' THEN quantity`). -/
def pendingSellQty (t : Trade) : Int :=
  if t.action = .sell ∧ t.status = .pending then (t.quantity : Int) else 0

/-- Cumulative filled buy quantity over the trades of one position. -/
def totalBought (ts : List Trade) : Int := (ts.map boughtQty).sum

/-- Cumulative filled sell quantity over the trades of one position. -/
def totalSold (ts : List Trade) : Int := (ts.map soldQty).sum

/-- Quantity reserved by pending sell orders of one position. -/
def pendingSells (ts : List Trade) : Int := (ts.map pendingSellQty).sum

/-- `calculateAvailableQuantity` from `docs/flows/stc-execution.md`:
`Math.max(0, totalBought - totalSold - pendingSells)`. -/
def calculateAvailableQuantity (ts : List Trade) : Int :=
  max 0 (totalBought ts - totalSold ts - pendingSells ts)

/-- The STC server action's guard: the request is accepted unless
`params.quantity > availableQty`. -/
def requestCloseOk (ts : List Trade) (q : Nat) : Bool :=
  !decide ((q : Int) > calculateAvailableQuantity ts)

/-- The `check_oversell` trigger's guard from `docs/database/schema.md`:
a sell insert of quantity `q` passes unless `q > bought - sold - pending`
(the trigger runs BEFORE INSERT, so the new row is not yet among the
position's trades). -/
def checkOversellOk (ts : List Trade) (q : Nat) : Bool :=
  decide ((q : Int) ≤ totalBought ts - totalSold ts - pendingSells ts)

/-- Operations the ledger accepts on the trades of a single position. -/
inductive LedgerOp where
  | insertBuy (q : Nat)
  | insertSell (q : Nat)
  | fillOrder (id : Nat) (fq : Nat) (price : ℚ)
  | cancelOrder (id : Nat)

/-- A freshly inserted pending BTO child trade. -/
def mkBuy (id q : Nat) : Trade :=
  { id := id, parentTradeId := 0, action := .buy, quantity := q }

/-- A freshly inserted pending STC child trade. -/
def mkSell (id q : Nat) : Trade :=
  { id := id, parentTradeId := 0, action := .sell, quantity := q }

/-- The fill update applied by the sync service: status becomes `filled`
and the broker-reported filled quantity and price are recorded. -/
def fillTrade (price : ℚ) (fq : Nat) (t : Trade) : Trade :=
  { t with status := .filled, filledQuantity := fq, filledPrice := price }

/-- One ledger transition on a position's trade list.  Sell inserts are
gated by the `check_oversell` trigger and leave the list unchanged when
the trigger raises; fills and cancels update the pending trade with the
given id. -/
def stepLedger (ts : List Trade) : LedgerOp → List Trade
  | .insertBuy q => ts ++ [mkBuy ts.length q]
  | .insertSell q =>
      if checkOversellOk ts q then ts ++ [mkSell ts.length q] else ts
  | .fillOrder i fq price =>
      ts.map fun t => if t.id = i ∧ t.status = .pending then fillTrade price fq t else t
  | .cancelOrder i =>
      ts.map fun t => if t.id = i ∧ t.status = .pending then { t with status := .cancelled } else t

/-- Well-formedness of an operation against the current state: a broker
fill never exceeds the order's requested quantity (the data-model
invariant `filled_quantity ≤ requested_quantity`). -/
def WFOp (ts : List Trade) : LedgerOp → Prop
  | .fillOrder i fq _ => ∀ t ∈ ts, t.id = i → fq ≤ t.quantity
  | _ => True

/-- Trade lists reachable from the empty position by accepted operations. -/
inductive ReachableLedger : List Trade → Prop where
  | nil : ReachableLedger []
  | step {ts : List Trade} {op : LedgerOp} :
      ReachableLedger ts → WFOp ts op → ReachableLedger (stepLedger ts op)

/-- Net reservation of one trade against the filled buys:
filled sells and pending sells consume quantity, filled buys provide it. -/
def reserve (t : Trade) : Int :=
  if t.action = .buy ∧ t.status = .filled then -(t.filledQuantity : Int)
  else if t.action = .sell ∧ t.status = .filled then (t.filledQuantity : Int)
  else if t.action = .sell ∧ t.status = .pending then (t.quantity : Int)
  else 0

/-- Option type: `option_type IN ('call','put')`. -/
inductive OptionType where
  | call
  | put
  deriving Repr, DecidableEq

/-- Parent-trade status: `status IN ('open','closed','expired','cancelled')`.
`'open'` is spelled `opened` (Lean keyword). -/
inductive ParentStatus where
  | opened
  | closed
  | expired
  | cancelled
  deriving Repr, DecidableEq

/-- One row of the `parent_trades` table (a position). -/
structure ParentTrade where
  id : Nat
  userId : Nat
  underlying : String
  optionType : OptionType
  strike : ℚ
  expiration : String
  status : ParentStatus := .opened
  totalCostBasis : ℚ := 0
  totalProceeds : ℚ := 0
  totalPnl : ℚ := 0
  closedAt : Option Nat := none
  deriving Repr, DecidableEq

/-- Contribution of one trade to the aggregate cost basis
(`action='buy' AND status='filled' THEN filled_quantity * filled_price * 100`). -/
def costContrib (t : Trade) : ℚ :=
  if t.action = .buy ∧ t.status = .filled then (t.filledQuantity : ℚ) * t.filledPrice * 100 else 0

/-- Contribution of one trade to the aggregate proceeds
(`action='sell' AND status='filled' THEN filled_quantity * filled_price * 100`). -/
def proceedsContrib (t : Trade) : ℚ :=
  if t.action = .sell ∧ t.status = .filled then (t.filledQuantity : ℚ) * t.filledPrice * 100 else 0

/-- `total_cost_basis` as recomputed by `update_parent_trade_aggregates`. -/
def totalCostBasisOf (ts : List Trade) : ℚ := (ts.map costContrib).sum

/-- `total_proceeds` as recomputed by `update_parent_trade_aggregates`. -/
def totalProceedsOf (ts : List Trade) : ℚ := (ts.map proceedsContrib).sum

/-- The `update_parent_trade_aggregates` trigger from `docs/database/schema.md`,
applied to the parent row with the position's trades at time `now`:
recomputes cost basis, proceeds and P&L, and when
`bought_qty > 0 AND bought_qty = sold_qty` sets the status to `closed`
and `closed_at` to `NOW()`. -/
def updateParentTradeAggregates (p : ParentTrade) (ts : List Trade) (now : Nat) : ParentTrade :=
  let cost := totalCostBasisOf ts
  let proceeds := totalProceedsOf ts
  let bought := totalBought ts
  let sold := totalSold ts
  { p with
    totalCostBasis := cost
    totalProceeds := proceeds
    totalPnl := proceeds - cost
    status := if 0 < bought ∧ bought = sold then .closed else p.status
    closedAt := if 0 < bought ∧ bought = sold then some now else p.closedAt }

/-- Per-fill P&L stored on a filled sell trade (`t.pnl ?? 0`). -/
def sellPnlContrib (t : Trade) : ℚ :=
  if t.action = .sell ∧ t.status = .filled then t.pnl.getD 0 else 0

/-- `allSells.reduce((sum, t) => sum + (t.pnl ?? 0), 0)` in `checkAndClosePosition`. -/
def totalPnLFromFills (ts : List Trade) : ℚ := (ts.map sellPnlContrib).sum

/-- Total raw cost of the filled opening fills (`buy.filledPrice * buy.filledQuantity`
summed in `calculatePnL`, before the contract multiplier). -/
def rawBuyCost (ts : List Trade) : ℚ :=
  ((ts.filter fun t => decide (t.action = .buy ∧ t.status = .filled)).map
    fun t => t.filledPrice * (t.filledQuantity : ℚ)).sum

/-- Total filled opening quantity summed in `calculatePnL`. -/
def rawBuyQty (ts : List Trade) : ℚ :=
  ((ts.filter fun t => decide (t.action = .buy ∧ t.status = .filled)).map
    fun t => (t.filledQuantity : ℚ)).sum

/-- `calculatePnL` from `docs/flows/stc-execution.md`: weighted average entry
over all filled buys, then `(pnl, pnlPercent)` for a closing fill of
`sellQuantity` contracts at `sellPrice`. -/
def calculatePnL (ts : List Trade) (sellQuantity sellPrice : ℚ) : ℚ × ℚ :=
  let averageEntry := rawBuyCost ts / rawBuyQty ts
  let costBasis := averageEntry * sellQuantity * 100
  let proceeds := sellPrice * sellQuantity * 100
  (proceeds - costBasis, (sellPrice - averageEntry) / averageEntry * 100)

/-- `checkAndClosePosition` from `docs/flows/stc-execution.md`: when the
available quantity is zero the parent is marked closed, `closedAt` is set
to the current time and `totalPnL` becomes the sum of the stored per-sell
P&L values.  Returns the updated parent and whether it closed. -/
def checkAndClosePosition (p : ParentTrade) (ts : List Trade) (now : Nat) :
    ParentTrade × Bool :=
  if calculateAvailableQuantity ts = 0 then
    ({ p with status := .closed, closedAt := some now, totalPnl := totalPnLFromFills ts }, true)
  else
    (p, false)

/-- Payload of an `order.filled` event (webhook) or a polled FILLED status. -/
structure FillParams where
  brokerOrderId : Nat
  filledQuantity : Nat
  averagePrice : ℚ
  filledAt : Nat
  deriving Repr, DecidableEq

/-- `findFirst` on `broker_order_id` followed by the fill update of
`syncService.handleOrderFilled`.  Returns the updated list and, when the
update fired, the trade record as it was found (the code passes the
pre-update `trade` to `onOrderFilled`); when the order is unknown or
already `filled` the list is returned unchanged with `none`. -/
def fillLookup : List Trade → FillParams → List Trade × Option Trade
  | [], _ => ([], none)
  | t :: ts, p =>
    if t.brokerOrderId = some p.brokerOrderId then
      if t.status = .filled then (t :: ts, none)
      else (fillTrade p.averagePrice p.filledQuantity t :: ts, some t)
    else
      let r := fillLookup ts p
      (t :: r.1, r.2)

/-- The ledger state the sync service mutates: one position's parent row
and the trades table. -/
structure Ledger where
  trades : List Trade
  parent : ParentTrade
  deriving Repr, DecidableEq

/-- External downstream effects fired by `onOrderFilled` (GetStream
activity, notifications, copy trading), recorded as events. -/
inductive Effect where
  | pnlUpdated (tradeId : Nat)
  | activityPublished (tradeId : Nat)
  | fillNotified (tradeId : Nat)
  | copyTriggered (tradeId : Nat)
  deriving Repr, DecidableEq

/-- The P&L write-back of `onOrderFilled`: store `pnl`/`pnlPercent` on the
trade with the given id. -/
def updatePnlField (ts : List Trade) (id : Nat) (v : ℚ × ℚ) : List Trade :=
  ts.map fun t => if t.id = id then { t with pnl := some v.1, pnlPercent := some v.2 } else t

/-- `syncService.onOrderFilled`: for a sell, compute and store P&L and run
`checkAndClosePosition`; then publish the activity, notify the user, and
for a manual buy trigger copy trading. -/
def onOrderFilled (l : Ledger) (t : Trade) (p : FillParams) : Ledger × List Effect :=
  let afterPnl : Ledger × List Effect :=
    if t.action = .sell then
      let v := calculatePnL l.trades (p.filledQuantity : ℚ) p.averagePrice
      ({ l with trades := updatePnlField l.trades t.id v }, [Effect.pnlUpdated t.id])
    else
      (l, [])
  let afterClose : Ledger × List Effect :=
    if t.action = .sell then
      ({ afterPnl.1 with
          parent := (checkAndClosePosition afterPnl.1.parent afterPnl.1.trades p.filledAt).1 },
        afterPnl.2)
    else
      afterPnl
  (afterClose.1,
    afterClose.2 ++ [Effect.activityPublished t.id, Effect.fillNotified t.id] ++
      (if t.action = .buy ∧ t.source = .manual then [Effect.copyTriggered t.id] else []))

/-- `syncService.handleOrderFilled`: look the trade up by broker order id;
when it is missing or already `filled`, return with no downstream effects,
otherwise apply the fill update and run the downstream actions. -/
def handleOrderFilled (l : Ledger) (p : FillParams) : Ledger × List Effect :=
  match fillLookup l.trades p with
  | (ts, none) => ({ l with trades := ts }, [])
  | (ts, some t) => onOrderFilled { l with trades := ts } t p

/-- `syncService.mapBrokerStatus` from `docs/flows/order-sync.md`. -/
def mapBrokerStatus (brokerStatus : String) : TradeStatus :=
  if brokerStatus = "PENDING" then .pending
  else if brokerStatus = "OPEN" then .pending
  else if brokerStatus = "PARTIALLY_FILLED" then .pending
  else if brokerStatus = "FILLED" then .filled
  else if brokerStatus = "CANCELLED" then .cancelled
  else if brokerStatus = "REJECTED" then .cancelled
  else if brokerStatus = "EXPIRED" then .cancelled
  else .pending

/-- The sync path's status write: set the status of the trade with the
given id (`updateTradeStatus` writes `mapBrokerStatus(brokerOrder.status)`). -/
def applyStatusUpdate (ts : List Trade) (id : Nat) (s : TradeStatus) : List Trade :=
  ts.map fun t => if t.id = id then { t with status := s } else t

/-- `SubscriptionSettings` from `lib/types/copy-trading.ts`. -/
structure SubscriptionSettings where
  autoExecute : Bool
  maxPositionSize : Int
  maxDailyTrades : Nat
  scalingFactor : ℚ
  deriving Repr, DecidableEq

/-- Result of `calculateCopyQuantity`. -/
structure CopyResult where
  quantity : Int
  skipped : Bool
  reason : Option String := none
  deriving Repr, DecidableEq

/-- `calculateCopyQuantity` from the copy-trading service: skip when the
subscriber's daily copied-trade count has reached `maxDailyTrades`;
otherwise scale by `Math.floor(originalQuantity * scalingFactor)`, cap at
`maxPositionSize`, and skip when the result is below one contract. -/
def calculateCopyQuantity (dailyCount : Nat) (settings : SubscriptionSettings)
    (originalQuantity : Int) : CopyResult :=
  if settings.maxDailyTrades ≤ dailyCount then
    { quantity := 0, skipped := true, reason := some "Daily trade limit reached" }
  else
    let scaledQuantity := ⌊(originalQuantity : ℚ) * settings.scalingFactor⌋
    let scaledQuantity :=
      if settings.maxPositionSize < scaledQuantity then settings.maxPositionSize
      else scaledQuantity
    if scaledQuantity < 1 then
      { quantity := 0, skipped := true, reason := some "Scaled quantity less than 1" }
    else
      { quantity := scaledQuantity, skipped := false }

/-- The copy quantity as the specification words it:
`min(floor(filledQty * scalingFactor), maxPositionSize)` applied to the
FILLED quantity of the trader's order.  Stated from the spec for
comparison with `calculateCopyQuantity`, which the service feeds with the
order's requested quantity instead. -/
def specCopyQuantity (filledQty : Int) (settings : SubscriptionSettings) : Int :=
  min ⌊(filledQty : ℚ) * settings.scalingFactor⌋ settings.maxPositionSize

/-- A copy order created by `executeCopyTrade` on behalf of a subscriber. -/
structure CopyOrder where
  subscriberId : Nat
  sourceTradeId : Nat
  quantity : Int
  deriving Repr, DecidableEq

/-- Per-subscriber dispatcher state: the copy orders executed so far and
the subscriber's count of copied trades created today (the `dailyCount`
query of `calculateCopyQuantity`), plus the copy-suggestion notifications
sent. -/
structure DispatchState where
  copies : List CopyOrder
  dailyCount : Nat
  notificationsSent : Nat := 0
  deriving Repr, DecidableEq

/-- `processSubscriber` from the copy-trading service: compute the copy
quantity from the trader trade's requested quantity; on skip, log and
return; otherwise auto-execute a copy order (which adds a `source='copy'`
trade, incrementing the subscriber's daily count) or send an approval
notification. -/
def processSubscriber (st : DispatchState) (settings : SubscriptionSettings)
    (subscriberId : Nat) (traderTrade : Trade) : DispatchState :=
  let r := calculateCopyQuantity st.dailyCount settings (traderTrade.quantity : Int)
  if r.skipped then st
  else if settings.autoExecute then
    { st with
      copies := st.copies ++
        [{ subscriberId := subscriberId, sourceTradeId := traderTrade.id, quantity := r.quantity }]
      dailyCount := st.dailyCount + 1 }
  else
    { st with notificationsSent := st.notificationsSent + 1 }

/-- `side: z.enum(['BTO','STC'])`. -/
inductive OrderSide where
  | bto
  | stc
  deriving Repr, DecidableEq

/-- `orderType: z.enum(['Market','Limit'])`. -/
inductive OrderKind where
  | market
  | limit
  deriving Repr, DecidableEq

/-- The input of `placeOptionOrder` after JSON parsing, before schema
validation. `quantity` is a JSON number, hence `ℚ` (it may be
non-integral before validation). -/
structure OrderInput where
  side : OrderSide
  underlying : String
  optionType : OptionType
  strike : ℚ
  expiration : String
  quantity : ℚ
  orderType : OrderKind
  limitPrice : Option ℚ := none
  parentTradeId : Option Nat := none
  deriving Repr, DecidableEq

/-- The `expiration` regex of `placeOrderSchema`: `^\d{4}-\d{2}-\d{2}$`. -/
def isDateString (s : String) : Bool :=
  match s.toList with
  | [a, b, c, d, e, f, g, h, i, j] =>
      a.isDigit && b.isDigit && c.isDigit && d.isDigit && e = '-' &&
      f.isDigit && g.isDigit && h = '-' && i.isDigit && j.isDigit
  | _ => false

/-- `placeOrderSchema` from `lib/actions/trading.actions.ts`:
underlying 1–10 chars, positive strike, date-formatted expiration,
`quantity: z.number().int().positive().max(1000)`, and a positive limit
price when present. -/
def placeOrderSchemaValid (i : OrderInput) : Bool :=
  decide (1 ≤ i.underlying.length) && decide (i.underlying.length ≤ 10) &&
  decide (0 < i.strike) &&
  isDateString i.expiration &&
  decide (i.quantity.den = 1) && decide (0 < i.quantity) && decide (i.quantity ≤ 1000) &&
  (match i.limitPrice with
   | none => true
   | some lp => decide (0 < lp))

/-- The persisted trading state `placeOptionOrder` mutates: the
`parent_trades` and `trades` tables, with a counter standing in for
`nanoid()`. -/
structure TradingDB where
  parentTrades : List ParentTrade
  trades : List Trade
  nextId : Nat
  deriving Repr, DecidableEq

/-- The error outcomes of `placeOptionOrder`. -/
inductive PlaceError where
  | invalidParams
  | parentRequired
  | positionNotFound
  | positionClosed
  | detailsMismatch
  | insufficientQuantity
  | insufficientBuyingPower
  deriving Repr, DecidableEq

/-- `placeOptionOrder`: validate against `placeOrderSchema`; for BTO check
buying power, then create a NEW parent trade in `open` status and a
pending buy child trade; for STC require `parentTradeId`, find the open
position with matching option details, run the oversell guard, and create
a pending sell child trade on the existing parent.  Returns the new state
and either the (parent id, trade id) pair or the error. -/
def placeOptionOrder (db : TradingDB) (userId : Nat) (buyingPower : ℚ)
    (i : OrderInput) : TradingDB × Except PlaceError (Nat × Nat) :=
  if placeOrderSchemaValid i = false then (db, .error .invalidParams)
  else
    match i.side with
    | .bto =>
      let cost := i.quantity * (i.limitPrice.getD 0) * 100
      if buyingPower < cost then (db, .error .insufficientBuyingPower)
      else
        let pid := db.nextId
        let tid := db.nextId + 1
        let parent : ParentTrade :=
          { id := pid, userId := userId, underlying := i.underlying,
            optionType := i.optionType, strike := i.strike, expiration := i.expiration }
        let trade : Trade :=
          { id := tid, parentTradeId := pid, action := .buy,
            quantity := i.quantity.num.toNat, status := .pending, source := .manual }
        ({ parentTrades := db.parentTrades ++ [parent],
           trades := db.trades ++ [trade], nextId := db.nextId + 2 }, .ok (pid, tid))
    | .stc =>
      match i.parentTradeId with
      | none => (db, .error .parentRequired)
      | some pid =>
        match db.parentTrades.find? fun p => p.id == pid && p.userId == userId with
        | none => (db, .error .positionNotFound)
        | some parent =>
          if parent.status ≠ .opened then (db, .error .positionClosed)
          else if parent.underlying ≠ i.underlying ∨ parent.optionType ≠ i.optionType ∨
              parent.strike ≠ i.strike ∨ parent.expiration ≠ i.expiration then
            (db, .error .detailsMismatch)
          else
            let positionTrades := db.trades.filter fun t => t.parentTradeId == pid
            if calculateAvailableQuantity positionTrades < i.quantity.num then
              (db, .error .insufficientQuantity)
            else
              let tid := db.nextId
              ({ db with
                  trades := db.trades ++
                    [{ id := tid, parentTradeId := pid, action := .sell,
                       quantity := i.quantity.num.toNat, status := .pending, source := .manual }]
                  nextId := db.nextId + 1 }, .ok (pid, tid))

/-- Trading states reachable from the empty database through
`placeOptionOrder` calls with arbitrary inputs. -/
inductive DBReachable : TradingDB → Prop where
  | nil : DBReachable { parentTrades := [], trades := [], nextId := 0 }
  | step {db : TradingDB} (userId : Nat) (buyingPower : ℚ) (i : OrderInput) :
      DBReachable db → DBReachable (placeOptionOrder db userId buyingPower i).1

/-- A chronological broker fill applied to a position's trades: the
record the ledger holds after the sync service processed the fill (buys
are recorded plain; sells carry the `calculatePnL` result computed over
the filled buys at that moment, as `onOrderFilled` stores it). -/
inductive FillEvent where
  | buyFill (q : Nat) (price : ℚ)
  | sellFill (q : Nat) (price : ℚ)
  deriving Repr, DecidableEq

/-- Apply one fill event to the position's trade history. -/
def applyFillEvent (ts : List Trade) : FillEvent → List Trade
  | .buyFill q price =>
      ts ++ [{ id := ts.length, parentTradeId := 0, action := .buy, quantity := q,
               filledQuantity := q, filledPrice := price, status := .filled }]
  | .sellFill q price =>
      let v := calculatePnL ts (q : ℚ) price
      ts ++ [{ id := ts.length, parentTradeId := 0, action := .sell, quantity := q,
               filledQuantity := q, filledPrice := price, status := .filled,
               pnl := some v.1, pnlPercent := some v.2 }]

/-- Run a chronological sequence of fills from a trade history. -/
def runFills (ts : List Trade) (es : List FillEvent) : List Trade :=
  es.foldl applyFillEvent ts

/-- A concrete accepted history on one position: insert a buy of 10, the
broker fills it fully at price 3, then a close request for 4 is accepted. -/
def sampleHistory : List Trade :=
  stepLedger (stepLedger (stepLedger [] (.insertBuy 10)) (.fillOrder 0 10 3)) (.insertSell 4)

/-- A position history closed by one full sell: buy 1 filled at 1, sell 1
filled at 1. -/
def c4Trades : List Trade :=
  [{ id := 0, parentTradeId := 0, action := .buy, quantity := 1,
     filledQuantity := 1, filledPrice := 1, status := .filled },
   { id := 1, parentTradeId := 0, action := .sell, quantity := 1,
     filledQuantity := 1, filledPrice := 1, status := .filled }]

/-- The parent row of the `c4Trades` position, still open. -/
def c4Parent : ParentTrade :=
  { id := 0, userId := 0, underlying := "AAPL", optionType := .call,
    strike := 150, expiration := "2024-01-19" }

/-- A single pending sell order awaiting the broker, as the sync path
sees it before a status update. -/
def c9Trades : List Trade :=
  [{ id := 5, parentTradeId := 0, action := .sell, quantity := 3, status := .pending }]

/-- Subscriber settings with auto-execute on and room in every limit. -/
def cexSettings : SubscriptionSettings :=
  { autoExecute := true, maxPositionSize := 10, maxDailyTrades := 5, scalingFactor := 1 }

/-- A manual trader buy of 3 contracts, fully filled. -/
def cexTraderTrade : Trade :=
  { id := 7, parentTradeId := 0, action := .buy, quantity := 3,
    filledQuantity := 3, filledPrice := 2, status := .filled }

/-- Settings that scale by 0.3 with a high position cap. -/
def c7Settings : SubscriptionSettings :=
  { autoExecute := true, maxPositionSize := 100, maxDailyTrades := 5, scalingFactor := 3 / 10 }

/-- A trader order for 10 contracts the broker filled only for 5. -/
def c7Trade : Trade :=
  { id := 9, parentTradeId := 0, action := .buy, quantity := 10,
    filledQuantity := 5, filledPrice := 2, status := .filled }

/-- Scale-in after a partial close: buy 1 at 10, sell 1 at 10, buy 1 at
20, sell 1 at 15. -/
def c6Events : List FillEvent :=
  [.buyFill 1 10, .sellFill 1 10, .buyFill 1 20, .sellFill 1 15]

/-- The empty trading database. -/
def emptyDB : TradingDB := { parentTrades := [], trades := [], nextId := 0 }

/-- A well-formed BTO request. -/
def btoInput : OrderInput :=
  { side := .bto, underlying := "AAPL", optionType := .call, strike := 150,
    expiration := "2024-01-19", quantity := 10, orderType := .limit, limitPrice := some 3 }

/-- The same request with a quantity above the schema's bound of 1000. -/
def badInput : OrderInput := { btoInput with quantity := 1001 }

/-! ## Oversell invariant (C1, C2) -/

theorem reserveSum_eq (ts : List Trade) :
    (ts.map reserve).sum = totalSold ts + pendingSells ts - totalBought ts := by
  induction ts with
  | nil => simp [totalSold, pendingSells, totalBought]
  | cons t ts ih =>
    simp only [List.map_cons, List.sum_cons, totalSold, pendingSells, totalBought] at ih ⊢
    cases hA : t.action <;> cases hS : t.status <;>
      simp [reserve, soldQty, boughtQty, pendingSellQty, hA, hS] <;> omega

theorem pendingSells_nonneg (ts : List Trade) : 0 ≤ pendingSells ts := by
  apply List.sum_nonneg
  intro x hx
  obtain ⟨t, _, rfl⟩ := List.mem_map.mp hx
  unfold pendingSellQty
  split <;> positivity

theorem inv_step (ts : List Trade) (op : LedgerOp)
    (hinv : (ts.map reserve).sum ≤ 0) (hwf : WFOp ts op) :
    ((stepLedger ts op).map reserve).sum ≤ 0 := by
  cases op with
  | insertBuy q =>
    simp only [stepLedger]
    rw [List.map_append, List.sum_append]
    simpa [reserve, mkBuy] using hinv
  | insertSell q =>
    by_cases hg : checkOversellOk ts q = true
    · simp only [stepLedger, if_pos hg]
      rw [List.map_append, List.sum_append]
      have hq : (q : Int) ≤ totalBought ts - totalSold ts - pendingSells ts := by
        simpa [checkOversellOk] using hg
      have hsum := reserveSum_eq ts
      simp only [List.map_cons, List.map_nil, List.sum_cons, List.sum_nil]
      have : reserve (mkSell ts.length q) = (q : Int) := by simp [reserve, mkSell]
      omega
    · simp only [stepLedger, if_neg hg]
      exact hinv
  | fillOrder i fq price =>
    simp only [stepLedger]
    rw [List.map_map]
    calc (ts.map (reserve ∘ fun t =>
            if t.id = i ∧ t.status = .pending then fillTrade price fq t else t)).sum
        ≤ (ts.map reserve).sum := by
          apply List.sum_le_sum
          intro t ht
          by_cases hc : t.id = i ∧ t.status = .pending
          · have hq := hwf t ht hc.1
            cases hA : t.action <;>
              (simp [reserve, fillTrade, hA, hc.1, hc.2, Function.comp]; try omega)
          · simp [Function.comp, if_neg hc]
      _ ≤ 0 := hinv
  | cancelOrder i =>
    simp only [stepLedger]
    rw [List.map_map]
    calc (ts.map (reserve ∘ fun t =>
            if t.id = i ∧ t.status = .pending then { t with status := .cancelled } else t)).sum
        ≤ (ts.map reserve).sum := by
          apply List.sum_le_sum
          intro t ht
          by_cases hc : t.id = i ∧ t.status = .pending
          · cases hA : t.action <;>
              simp [reserve, hA, hc.1, hc.2, Function.comp]
          · simp [Function.comp, if_neg hc]
      _ ≤ 0 := hinv

theorem reachable_inv {ts : List Trade} (h : ReachableLedger ts) :
    totalSold ts + pendingSells ts ≤ totalBought ts := by
  have hsum : (ts.map reserve).sum ≤ 0 := by
    induction h with
    | nil => simp
    | step hr hwf ih => exact inv_step _ _ ih hwf
  have := reserveSum_eq ts
  omega

/-- C1: for every sequence of accepted opening/closing operations on a
position, the cumulative filled sell quantity never exceeds the
cumulative filled buy quantity, and a sell insert whose quantity exceeds
the available quantity is rejected by the `check_oversell` trigger: the
trade list is unchanged, so the order is never recorded. -/
theorem oversell_never_happens (ts : List Trade) (h : ReachableLedger ts) :
    totalSold ts ≤ totalBought ts ∧
    ∀ q : Nat, totalBought ts - totalSold ts - pendingSells ts < (q : Int) →
      stepLedger ts (.insertSell q) = ts := by
  constructor
  · have h1 := reachable_inv h
    have h2 := pendingSells_nonneg ts
    omega
  · intro q hq
    have hg : ¬ checkOversellOk ts q = true := by
      simp only [checkOversellOk, decide_eq_true_eq]
      omega
    simp [stepLedger, hg]

theorem oversell_never_happens_witness :
    totalSold sampleHistory ≤ totalBought sampleHistory ∧
    stepLedger sampleHistory (.insertSell 7) = sampleHistory := by
  have h0 : ReachableLedger [] := .nil
  have h1 : ReachableLedger (stepLedger [] (.insertBuy 10)) := .step h0 trivial
  have h2 : ReachableLedger
      (stepLedger (stepLedger [] (.insertBuy 10)) (.fillOrder 0 10 3)) :=
    .step h1 (by
      show ∀ t ∈ stepLedger [] (.insertBuy 10), t.id = 0 → 10 ≤ t.quantity
      decide)
  have h3 : ReachableLedger sampleHistory := .step h2 trivial
  exact ⟨(oversell_never_happens _ h3).1,
    (oversell_never_happens _ h3).2 7 (by decide)⟩

/-- C2: on every reachable position the available quantity returned by
`calculateAvailableQuantity` equals filled buys minus filled sells minus
pending sells (the `Math.max 0` clamp never bites), and the STC action
accepts a close request exactly when the requested quantity is at most
that value. -/
theorem availableQuantity_spec (ts : List Trade) (h : ReachableLedger ts) :
    calculateAvailableQuantity ts = totalBought ts - totalSold ts - pendingSells ts ∧
    ∀ q : Nat, (requestCloseOk ts q = true ↔
      (q : Int) ≤ totalBought ts - totalSold ts - pendingSells ts) := by
  have h1 := reachable_inv h
  have heq : calculateAvailableQuantity ts
      = totalBought ts - totalSold ts - pendingSells ts := by
    unfold calculateAvailableQuantity
    omega
  refine ⟨heq, fun q => ?_⟩
  simp only [requestCloseOk, heq, Bool.not_eq_true', decide_eq_false_iff_not, not_lt]

theorem availableQuantity_spec_witness :
    calculateAvailableQuantity sampleHistory
      = totalBought sampleHistory - totalSold sampleHistory - pendingSells sampleHistory ∧
    (requestCloseOk sampleHistory 6 = true ↔
      (6 : Int) ≤ totalBought sampleHistory - totalSold sampleHistory - pendingSells sampleHistory) := by
  have h0 : ReachableLedger [] := .nil
  have h1 : ReachableLedger (stepLedger [] (.insertBuy 10)) := .step h0 trivial
  have h2 : ReachableLedger
      (stepLedger (stepLedger [] (.insertBuy 10)) (.fillOrder 0 10 3)) :=
    .step h1 (by
      show ∀ t ∈ stepLedger [] (.insertBuy 10), t.id = 0 → 10 ≤ t.quantity
      decide)
  have h3 : ReachableLedger sampleHistory := .step h2 trivial
  exact ⟨(availableQuantity_spec _ h3).1, (availableQuantity_spec _ h3).2 6⟩

/-! ## Fill idempotence (C3) -/

theorem fillLookup_none_fst (ts : List Trade) (p : FillParams)
    (h : (fillLookup ts p).2 = none) : (fillLookup ts p).1 = ts := by
  induction ts with
  | nil => simp [fillLookup]
  | cons t ts ih =>
    by_cases hb : t.brokerOrderId = some p.brokerOrderId
    · by_cases hs : t.status = .filled
      · simp [fillLookup, hb, hs]
      · simp [fillLookup, hb, hs] at h
    · simp only [fillLookup, if_neg hb] at h ⊢
      simpa using ih h

theorem fillLookup_idem (ts : List Trade) (p : FillParams) :
    fillLookup (fillLookup ts p).1 p = ((fillLookup ts p).1, none) := by
  induction ts with
  | nil => simp [fillLookup]
  | cons t ts ih =>
    by_cases hb : t.brokerOrderId = some p.brokerOrderId
    · by_cases hs : t.status = .filled
      · simp [fillLookup, hb, hs]
      · simp [fillLookup, hb, hs, fillTrade]
    · simp only [fillLookup, if_neg hb]
      simp [fillLookup, hb, ih]

theorem fillLookup_map_none (ts : List Trade) (p : FillParams) (g : Trade → Trade)
    (hg : ∀ t, (g t).brokerOrderId = t.brokerOrderId ∧ (g t).status = t.status)
    (h : fillLookup ts p = (ts, none)) :
    fillLookup (ts.map g) p = (ts.map g, none) := by
  induction ts with
  | nil => simp [fillLookup]
  | cons t ts ih =>
    by_cases hb : t.brokerOrderId = some p.brokerOrderId
    · by_cases hs : t.status = .filled
      · simp [fillLookup, hb, hs, (hg t).1, (hg t).2]
      · simp [fillLookup, hb, hs] at h
    · have hh : fillLookup ts p = (ts, none) := by
        simp only [fillLookup, if_neg hb, Prod.mk.injEq, List.cons.injEq] at h
        exact Prod.ext h.1.2 h.2
      simp only [List.map_cons, fillLookup, (hg t).1, if_neg hb, ih hh]

theorem handleOrderFilled_noFire (l : Ledger) (p : FillParams)
    (h : fillLookup l.trades p = (l.trades, none)) :
    handleOrderFilled l p = (l, []) := by
  unfold handleOrderFilled
  rw [h]

theorem handleOrderFilled_trades_stable (l : Ledger) (p : FillParams) :
    fillLookup (handleOrderFilled l p).1.trades p
      = ((handleOrderFilled l p).1.trades, none) := by
  unfold handleOrderFilled
  rcases hfl : fillLookup l.trades p with ⟨ts, r⟩
  cases r with
  | none =>
    have h1 : ts = l.trades := by
      have h2 := fillLookup_none_fst l.trades p (by rw [hfl])
      rw [hfl] at h2
      exact h2
    subst h1
    simpa using hfl
  | some t =>
    have hidem : fillLookup ts p = (ts, none) := by
      have h2 := fillLookup_idem l.trades p
      rw [hfl] at h2
      exact h2
    simp only [onOrderFilled]
    by_cases ha : t.action = .sell
    · simp only [ha, if_pos, reduceIte]
      exact fillLookup_map_none ts p _ (fun t' => by
        by_cases hid : t'.id = t.id <;> simp [hid]) hidem
    · simp [ha, hidem]

/-- C3: re-applying the same terminal fill event is a no-op.  After
`syncService.handleOrderFilled` has processed a fill, processing the same
fill again returns the ledger unchanged (so the position's aggregates are
identical to applying it once) and fires no downstream effects (the
second application emits no events), because the trade is already in
status `filled` and the handler returns early. -/
theorem handleOrderFilled_idempotent (l : Ledger) (p : FillParams) :
    handleOrderFilled (handleOrderFilled l p).1 p = ((handleOrderFilled l p).1, []) :=
  handleOrderFilled_noFire _ _ (handleOrderFilled_trades_stable l p)

/-! ## Position close transition (C4) -/

/-- C4 counterexample: re-evaluating the aggregate trigger on an already
closed position overwrites `closed_at`.  On the closed `c4Trades`
position the trigger stamps `closed_at = 1` at time 1, and a second
evaluation at time 2 replaces it with 2, so `closed_at` is not written
exactly once as the claim states. -/
theorem closedAt_overwritten_cex :
    (updateParentTradeAggregates c4Parent c4Trades 1).status = .closed ∧
    (updateParentTradeAggregates c4Parent c4Trades 1).closedAt = some 1 ∧
    (updateParentTradeAggregates
        (updateParentTradeAggregates c4Parent c4Trades 1) c4Trades 2).closedAt = some 2 ∧
    (updateParentTradeAggregates
        (updateParentTradeAggregates c4Parent c4Trades 1) c4Trades 2).closedAt
      ≠ (updateParentTradeAggregates c4Parent c4Trades 1).closedAt := by
  decide

/-- C4 amended: the aggregate trigger transitions a not-yet-closed
position to `closed` exactly when the filled buys are positive and equal
the filled sells; whenever that condition holds it writes `closed_at :=
now`, overwriting on every re-evaluation (not exactly once); when it does
not hold, status and `closed_at` are left alone. -/
theorem close_transition_amended (p : ParentTrade) (ts : List Trade) (now : Nat)
    (h : p.status ≠ .closed) :
    ((updateParentTradeAggregates p ts now).status = .closed ↔
      0 < totalBought ts ∧ totalBought ts = totalSold ts) ∧
    (0 < totalBought ts ∧ totalBought ts = totalSold ts →
      (updateParentTradeAggregates p ts now).closedAt = some now) ∧
    (¬(0 < totalBought ts ∧ totalBought ts = totalSold ts) →
      (updateParentTradeAggregates p ts now).status = p.status ∧
      (updateParentTradeAggregates p ts now).closedAt = p.closedAt) := by
  by_cases hc : 0 < totalBought ts ∧ totalBought ts = totalSold ts
  · simp only [updateParentTradeAggregates, if_pos hc]
    exact ⟨iff_of_true trivial hc, fun _ => trivial, fun hn => absurd hc hn⟩
  · simp only [updateParentTradeAggregates, if_neg hc]
    exact ⟨iff_of_false h hc, fun hcc => absurd hcc hc, fun _ => ⟨trivial, trivial⟩⟩

theorem close_transition_witness :
    ((updateParentTradeAggregates c4Parent c4Trades 1).status = .closed ↔
      0 < totalBought c4Trades ∧ totalBought c4Trades = totalSold c4Trades) ∧
    (0 < totalBought c4Trades ∧ totalBought c4Trades = totalSold c4Trades →
      (updateParentTradeAggregates c4Parent c4Trades 1).closedAt = some 1) ∧
    (¬(0 < totalBought c4Trades ∧ totalBought c4Trades = totalSold c4Trades) →
      (updateParentTradeAggregates c4Parent c4Trades 1).status = c4Parent.status ∧
      (updateParentTradeAggregates c4Parent c4Trades 1).closedAt = c4Parent.closedAt) :=
  close_transition_amended c4Parent c4Trades 1 (by decide)

/-! ## Broker rejection handling (C9) -/

/-- C9 counterexample: the sync service maps the broker status
`REJECTED` to `cancelled`, not to the schema's distinct `rejected`
status, so a broker rejection is not marked `rejected` as the claim
states. -/
theorem broker_rejected_status_cex :
    mapBrokerStatus "REJECTED" = .cancelled ∧
    mapBrokerStatus "REJECTED" ≠ .rejected := by
  decide

/-- C9 amended: a broker rejection of a pending order is recorded with
status `cancelled` (`mapBrokerStatus` folds `REJECTED` into `cancelled`;
the schema's `rejected` value is never produced by the sync path), and
the position's aggregates — cost basis and proceeds, hence P&L — are
unchanged by the transition, since only `filled` trades contribute. -/
theorem broker_rejected_amended (ts : List Trade) (id : Nat)
    (hpending : ∀ t ∈ ts, t.id = id → t.status = .pending) :
    mapBrokerStatus "REJECTED" = .cancelled ∧
    (∀ t ∈ applyStatusUpdate ts id (mapBrokerStatus "REJECTED"),
      t.id = id → t.status = .cancelled) ∧
    totalCostBasisOf (applyStatusUpdate ts id (mapBrokerStatus "REJECTED"))
      = totalCostBasisOf ts ∧
    totalProceedsOf (applyStatusUpdate ts id (mapBrokerStatus "REJECTED"))
      = totalProceedsOf ts := by
  have hmap : mapBrokerStatus "REJECTED" = .cancelled := by decide
  rw [hmap]
  refine ⟨rfl, ?_, ?_, ?_⟩
  · intro t ht hid
    unfold applyStatusUpdate at ht
    obtain ⟨t0, ht0, rfl⟩ := List.mem_map.mp ht
    by_cases h0 : t0.id = id
    · simp [h0]
    · simp only [if_neg h0] at hid ⊢
      exact absurd hid h0
  · unfold totalCostBasisOf applyStatusUpdate
    rw [List.map_map]
    congr 1
    apply List.map_congr_left
    intro t ht
    by_cases h0 : t.id = id
    · have hp := hpending t ht h0
      simp [costContrib, Function.comp, h0, hp]
    · simp [Function.comp, h0]
  · unfold totalProceedsOf applyStatusUpdate
    rw [List.map_map]
    congr 1
    apply List.map_congr_left
    intro t ht
    by_cases h0 : t.id = id
    · have hp := hpending t ht h0
      simp [proceedsContrib, Function.comp, h0, hp]
    · simp [Function.comp, h0]

theorem broker_rejected_witness :
    mapBrokerStatus "REJECTED" = .cancelled ∧
    (∀ t ∈ applyStatusUpdate c9Trades 5 (mapBrokerStatus "REJECTED"),
      t.id = 5 → t.status = .cancelled) ∧
    totalCostBasisOf (applyStatusUpdate c9Trades 5 (mapBrokerStatus "REJECTED"))
      = totalCostBasisOf c9Trades ∧
    totalProceedsOf (applyStatusUpdate c9Trades 5 (mapBrokerStatus "REJECTED"))
      = totalProceedsOf c9Trades :=
  broker_rejected_amended c9Trades 5 (by decide)

/-! ## Copy-trade dispatch (C5, C7) -/

/-- C5 counterexample: there is no idempotency record in the dispatcher.
Processing the same fill event twice for the same subscriber executes a
second copy order — `processSubscriber` re-evaluates the limits afresh
and appends another copy, so the set of copy orders after two
applications differs from the set after one. -/
theorem copy_dispatch_duplicate_cex :
    (processSubscriber { copies := [], dailyCount := 0 } cexSettings 1 cexTraderTrade).copies.length = 1 ∧
    (processSubscriber
        (processSubscriber { copies := [], dailyCount := 0 } cexSettings 1 cexTraderTrade)
        cexSettings 1 cexTraderTrade).copies.length = 2 ∧
    (processSubscriber
        (processSubscriber { copies := [], dailyCount := 0 } cexSettings 1 cexTraderTrade)
        cexSettings 1 cexTraderTrade).copies ≠
      (processSubscriber { copies := [], dailyCount := 0 } cexSettings 1 cexTraderTrade).copies := by
  have hc0 : calculateCopyQuantity 0 cexSettings (cexTraderTrade.quantity : Int) =
      { quantity := 3, skipped := false } := by
    unfold calculateCopyQuantity cexSettings cexTraderTrade
    norm_num
  have hc1 : calculateCopyQuantity 1 cexSettings (cexTraderTrade.quantity : Int) =
      { quantity := 3, skipped := false } := by
    unfold calculateCopyQuantity cexSettings cexTraderTrade
    norm_num
  have h1 : processSubscriber { copies := [], dailyCount := 0 } cexSettings 1 cexTraderTrade =
      { copies := [{ subscriberId := 1, sourceTradeId := 7, quantity := 3 }], dailyCount := 1 } := by
    simp only [processSubscriber, hc0]
    simp [cexSettings, cexTraderTrade]
  have h2 : processSubscriber
      { copies := [{ subscriberId := 1, sourceTradeId := 7, quantity := 3 }], dailyCount := 1 }
      cexSettings 1 cexTraderTrade =
      { copies := [{ subscriberId := 1, sourceTradeId := 7, quantity := 3 },
                   { subscriberId := 1, sourceTradeId := 7, quantity := 3 }],
        dailyCount := 2 } := by
    simp only [processSubscriber, hc1]
    simp [cexSettings, cexTraderTrade]
  rw [h1, h2]
  refine ⟨rfl, rfl, by simp⟩

/-- C5 amended: `processSubscriber` performs no per-(source order,
subscriber) idempotency check — no CopyDispatchRecord exists in the code.
Every invocation for the same fill that passes the daily-trade limit and
the minimum-quantity check (with auto-execute on) executes another copy
order and increments the subscriber's daily copied-trade count, so
duplicate dispatch on re-delivery is bounded only by `maxDailyTrades`,
not by one per source order. -/
theorem copy_dispatch_amended (st : DispatchState) (settings : SubscriptionSettings)
    (sid : Nat) (tr : Trade)
    (hauto : settings.autoExecute = true)
    (hdaily : st.dailyCount < settings.maxDailyTrades)
    (hqty : 1 ≤ min ⌊(tr.quantity : ℚ) * settings.scalingFactor⌋ settings.maxPositionSize) :
    processSubscriber st settings sid tr =
      { st with
        copies := st.copies ++
          [{ subscriberId := sid, sourceTradeId := tr.id,
             quantity := min ⌊(tr.quantity : ℚ) * settings.scalingFactor⌋ settings.maxPositionSize }]
        dailyCount := st.dailyCount + 1 } := by
  unfold processSubscriber calculateCopyQuantity
  have hnd : ¬ settings.maxDailyTrades ≤ st.dailyCount := by omega
  rw [if_neg hnd]
  by_cases hcap : settings.maxPositionSize < ⌊(tr.quantity : ℚ) * settings.scalingFactor⌋
  · have hm : min ⌊(tr.quantity : ℚ) * settings.scalingFactor⌋ settings.maxPositionSize
        = settings.maxPositionSize := by
      rw [min_def]
      rw [if_neg (by omega)]
    rw [hm] at hqty ⊢
    simp [hcap, hauto, not_lt.mpr hqty]
  · have hm : min ⌊(tr.quantity : ℚ) * settings.scalingFactor⌋ settings.maxPositionSize
        = ⌊(tr.quantity : ℚ) * settings.scalingFactor⌋ := by
      rw [min_def]
      rw [if_pos (by omega)]
    rw [hm] at hqty ⊢
    simp [hcap, hauto, not_lt.mpr hqty]

theorem copy_dispatch_amended_witness :
    processSubscriber { copies := [], dailyCount := 0 } cexSettings 1 cexTraderTrade =
      { copies := [{ subscriberId := 1, sourceTradeId := 7, quantity := 3 }],
        dailyCount := 1 } := by
  have h := copy_dispatch_amended { copies := [], dailyCount := 0 } cexSettings 1 cexTraderTrade
    rfl (by decide) (by norm_num [cexSettings, cexTraderTrade])
  rw [h]
  norm_num [cexSettings, cexTraderTrade]

/-- C7 counterexample: the dispatcher scales the trader order's REQUESTED
quantity, not the filled quantity.  For an order of 10 contracts of which
the broker filled only 5, with scaling factor 0.3 the service computes
`floor(10 × 0.3) = 3`, while the claim's
`min(floor(filledQty × scalingFactor), maxPositionSize)` yields 1. -/
theorem copy_quantity_filledQty_cex :
    (calculateCopyQuantity 0 c7Settings (c7Trade.quantity : Int)).quantity = 3 ∧
    specCopyQuantity (c7Trade.filledQuantity : Int) c7Settings = 1 ∧
    (processSubscriber { copies := [], dailyCount := 0 } c7Settings 2 c7Trade).copies =
      [{ subscriberId := 2, sourceTradeId := 9, quantity := 3 }] ∧
    (3 : Int) ≠ 1 := by
  have hc : calculateCopyQuantity 0 c7Settings (c7Trade.quantity : Int) =
      { quantity := 3, skipped := false } := by
    unfold calculateCopyQuantity c7Settings c7Trade
    norm_num
  have h5 : (⌊((((5 : ℕ) : ℤ)) : ℚ) * (3 / 10)⌋ : ℤ) = 1 := by
    rw [Int.floor_eq_iff]
    norm_num
  have hs : specCopyQuantity (c7Trade.filledQuantity : Int) c7Settings = 1 := by
    unfold specCopyQuantity c7Settings c7Trade
    rw [h5]
    norm_num
  refine ⟨by rw [hc], hs, ?_, by norm_num⟩
  simp only [processSubscriber, hc]
  simp [c7Settings, c7Trade]

/-- C7 amended: `calculateCopyQuantity` is the deterministic function
`min(floor(requestedQty × scalingFactor), maxPositionSize)` of the trader
order's REQUESTED quantity: it skips exactly when the daily copied-trade
count has reached `maxDailyTrades` or that minimum is below 1, and
otherwise returns it as the copy quantity; a skip carries no error to the
trader. -/
theorem copy_quantity_amended (dailyCount : Nat) (settings : SubscriptionSettings) (q : Int) :
    ((calculateCopyQuantity dailyCount settings q).skipped = true ↔
      settings.maxDailyTrades ≤ dailyCount ∨
        min ⌊(q : ℚ) * settings.scalingFactor⌋ settings.maxPositionSize < 1) ∧
    ((calculateCopyQuantity dailyCount settings q).skipped = false →
      (calculateCopyQuantity dailyCount settings q).quantity =
        min ⌊(q : ℚ) * settings.scalingFactor⌋ settings.maxPositionSize) := by
  unfold calculateCopyQuantity
  by_cases hd : settings.maxDailyTrades ≤ dailyCount
  · simp [hd]
  · by_cases hcap : settings.maxPositionSize < ⌊(q : ℚ) * settings.scalingFactor⌋
    · have hm : min ⌊(q : ℚ) * settings.scalingFactor⌋ settings.maxPositionSize
          = settings.maxPositionSize := by
        rw [min_def]
        rw [if_neg (by omega)]
      by_cases h1 : settings.maxPositionSize < 1 <;> simp [hd, hcap, h1, hm]
    · have hm : min ⌊(q : ℚ) * settings.scalingFactor⌋ settings.maxPositionSize
          = ⌊(q : ℚ) * settings.scalingFactor⌋ := by
        rw [min_def]
        rw [if_pos (by omega)]
      by_cases h1 : ⌊(q : ℚ) * settings.scalingFactor⌋ < 1 <;> simp [hd, hcap, h1, hm]

/-! ## P&L round-trip (C6) -/

theorem append_buy_fill (ts : List Trade) (q : Nat) (price : ℚ) :
    rawBuyCost (applyFillEvent ts (.buyFill q price)) = rawBuyCost ts + price * q ∧
    rawBuyQty (applyFillEvent ts (.buyFill q price)) = rawBuyQty ts + q ∧
    totalCostBasisOf (applyFillEvent ts (.buyFill q price))
      = totalCostBasisOf ts + q * price * 100 ∧
    totalProceedsOf (applyFillEvent ts (.buyFill q price)) = totalProceedsOf ts ∧
    totalPnLFromFills (applyFillEvent ts (.buyFill q price)) = totalPnLFromFills ts := by
  unfold applyFillEvent rawBuyCost rawBuyQty totalCostBasisOf totalProceedsOf totalPnLFromFills
  simp [List.filter_append, costContrib, proceedsContrib, sellPnlContrib]

theorem append_sell_fill (ts : List Trade) (q : Nat) (price : ℚ) :
    rawBuyCost (applyFillEvent ts (.sellFill q price)) = rawBuyCost ts ∧
    rawBuyQty (applyFillEvent ts (.sellFill q price)) = rawBuyQty ts ∧
    totalCostBasisOf (applyFillEvent ts (.sellFill q price)) = totalCostBasisOf ts ∧
    totalProceedsOf (applyFillEvent ts (.sellFill q price))
      = totalProceedsOf ts + (q : ℚ) * price * 100 ∧
    totalPnLFromFills (applyFillEvent ts (.sellFill q price))
      = totalPnLFromFills ts +
          (price * q * 100 - rawBuyCost ts / rawBuyQty ts * q * 100) := by
  unfold applyFillEvent calculatePnL rawBuyCost rawBuyQty totalCostBasisOf totalProceedsOf
    totalPnLFromFills
  simp [List.filter_append, costContrib, proceedsContrib, sellPnlContrib]

theorem sells_accumulate (sells : List (Nat × ℚ)) (s0 : List Trade) :
    rawBuyCost (runFills s0 (sells.map fun sp => FillEvent.sellFill sp.1 sp.2))
      = rawBuyCost s0 ∧
    rawBuyQty (runFills s0 (sells.map fun sp => FillEvent.sellFill sp.1 sp.2))
      = rawBuyQty s0 ∧
    totalCostBasisOf (runFills s0 (sells.map fun sp => FillEvent.sellFill sp.1 sp.2))
      = totalCostBasisOf s0 ∧
    totalProceedsOf (runFills s0 (sells.map fun sp => FillEvent.sellFill sp.1 sp.2))
      = totalProceedsOf s0 + (sells.map fun sp => sp.2 * (sp.1 : ℚ) * 100).sum ∧
    totalPnLFromFills (runFills s0 (sells.map fun sp => FillEvent.sellFill sp.1 sp.2))
      = totalPnLFromFills s0 +
          ((sells.map fun sp => sp.2 * (sp.1 : ℚ) * 100).sum
            - rawBuyCost s0 / rawBuyQty s0 * (sells.map fun sp => (sp.1 : ℚ)).sum * 100) := by
  induction sells generalizing s0 with
  | nil => simp [runFills]
  | cons sp sells ih =>
    simp only [List.map_cons, runFills, List.foldl_cons] at ih ⊢
    obtain ⟨a1, a2, a3, a4, a5⟩ := append_sell_fill s0 sp.1 sp.2
    obtain ⟨b1, b2, b3, b4, b5⟩ := ih (applyFillEvent s0 (.sellFill sp.1 sp.2))
    rw [a1] at b1
    rw [a2] at b2
    rw [a3] at b3
    refine ⟨b1, b2, b3, ?_, ?_⟩
    · rw [b4, a4, List.sum_cons]
      ring
    · rw [b5, a5, a1, a2, List.sum_cons, List.sum_cons]
      ring

theorem buys_accumulate (buys : List (Nat × ℚ)) (s0 : List Trade) :
    rawBuyCost (runFills s0 (buys.map fun bp => FillEvent.buyFill bp.1 bp.2))
      = rawBuyCost s0 + (buys.map fun bp => bp.2 * (bp.1 : ℚ)).sum ∧
    rawBuyQty (runFills s0 (buys.map fun bp => FillEvent.buyFill bp.1 bp.2))
      = rawBuyQty s0 + (buys.map fun bp => (bp.1 : ℚ)).sum ∧
    totalCostBasisOf (runFills s0 (buys.map fun bp => FillEvent.buyFill bp.1 bp.2))
      = totalCostBasisOf s0 + 100 * (buys.map fun bp => bp.2 * (bp.1 : ℚ)).sum ∧
    totalProceedsOf (runFills s0 (buys.map fun bp => FillEvent.buyFill bp.1 bp.2))
      = totalProceedsOf s0 ∧
    totalPnLFromFills (runFills s0 (buys.map fun bp => FillEvent.buyFill bp.1 bp.2))
      = totalPnLFromFills s0 := by
  induction buys generalizing s0 with
  | nil => simp [runFills]
  | cons bp buys ih =>
    simp only [List.map_cons, runFills, List.foldl_cons] at ih ⊢
    obtain ⟨a1, a2, a3, a4, a5⟩ := append_buy_fill s0 bp.1 bp.2
    obtain ⟨b1, b2, b3, b4, b5⟩ := ih (applyFillEvent s0 (.buyFill bp.1 bp.2))
    refine ⟨?_, ?_, ?_, ?_, ?_⟩
    · rw [b1, a1, List.sum_cons]
      ring
    · rw [b2, a2, List.sum_cons]
      ring
    · rw [b3, a3, List.sum_cons]
      ring
    · rw [b4, a4]
    · rw [b5, a5]

theorem runFills_buy_sell_closed_aux (buys sells : List (Nat × ℚ)) :
    totalPnLFromFills (runFills []
        ((buys.map fun bp => FillEvent.buyFill bp.1 bp.2) ++
          (sells.map fun sp => FillEvent.sellFill sp.1 sp.2))) =
      (sells.map fun sp => sp.2 * (sp.1 : ℚ) * 100).sum -
        (buys.map fun bp => bp.2 * (bp.1 : ℚ)).sum /
          (buys.map fun bp => (bp.1 : ℚ)).sum *
          (sells.map fun sp => (sp.1 : ℚ)).sum * 100 ∧
    totalProceedsOf (runFills []
        ((buys.map fun bp => FillEvent.buyFill bp.1 bp.2) ++
          (sells.map fun sp => FillEvent.sellFill sp.1 sp.2)))
      = (sells.map fun sp => sp.2 * (sp.1 : ℚ) * 100).sum ∧
    totalCostBasisOf (runFills []
        ((buys.map fun bp => FillEvent.buyFill bp.1 bp.2) ++
          (sells.map fun sp => FillEvent.sellFill sp.1 sp.2)))
      = 100 * (buys.map fun bp => bp.2 * (bp.1 : ℚ)).sum := by
  rw [runFills, List.foldl_append]
  obtain ⟨c1, c2, c3, c4, c5⟩ := buys_accumulate buys []
  simp only [runFills] at c1 c2 c3 c4 c5
  obtain ⟨d1, d2, d3, d4, d5⟩ :=
    sells_accumulate sells ((buys.map fun bp => FillEvent.buyFill bp.1 bp.2).foldl applyFillEvent [])
  simp only [runFills] at d1 d2 d3 d4 d5
  have hC : rawBuyCost ([] : List Trade) = 0 := by simp [rawBuyCost]
  have hQ : rawBuyQty ([] : List Trade) = 0 := by simp [rawBuyQty]
  have hPB : totalPnLFromFills ([] : List Trade) = 0 := by simp [totalPnLFromFills, sellPnlContrib]
  have hPr : totalProceedsOf ([] : List Trade) = 0 := by simp [totalProceedsOf, proceedsContrib]
  have hCB : totalCostBasisOf ([] : List Trade) = 0 := by simp [totalCostBasisOf, costContrib]
  rw [c1, hC, zero_add] at d5
  rw [c2, hQ, zero_add] at d5
  rw [c5, hPB, zero_add] at d5
  rw [c4, hPr, zero_add] at d4
  rw [c3, hCB, zero_add] at d3
  exact ⟨d5, d4, d3⟩

/-- C6 counterexample: scale-in after a partial close breaks the
round-trip.  On the fully closed history buy 1 at 10, sell 1 at 10, buy 1
at 20, sell 1 at 15, the per-fill P&L sum (each close priced against the
running average of all filled buys to date) is 0, while the closed
position's aggregates give proceeds − cost = −500, so the two disagree. -/
theorem pnl_roundtrip_cex :
    0 < totalBought (runFills [] c6Events) ∧
    totalBought (runFills [] c6Events) = totalSold (runFills [] c6Events) ∧
    totalPnLFromFills (runFills [] c6Events) = 0 ∧
    totalProceedsOf (runFills [] c6Events) - totalCostBasisOf (runFills [] c6Events) = -500 ∧
    totalPnLFromFills (runFills [] c6Events) ≠
      totalProceedsOf (runFills [] c6Events) - totalCostBasisOf (runFills [] c6Events) := by
  have hrun : runFills [] c6Events =
      [{ id := 0, parentTradeId := 0, action := .buy, quantity := 1,
         filledQuantity := 1, filledPrice := 10, status := .filled },
       { id := 1, parentTradeId := 0, action := .sell, quantity := 1,
         filledQuantity := 1, filledPrice := 10, status := .filled,
         pnl := some 0, pnlPercent := some 0 },
       { id := 2, parentTradeId := 0, action := .buy, quantity := 1,
         filledQuantity := 1, filledPrice := 20, status := .filled },
       { id := 3, parentTradeId := 0, action := .sell, quantity := 1,
         filledQuantity := 1, filledPrice := 15, status := .filled,
         pnl := some 0, pnlPercent := some 0 }] := by
    have hAc : (Action.sell = Action.buy) = False := by simp
    have hAc2 : (Action.buy = Action.sell) = False := by simp
    simp only [c6Events, runFills, List.foldl_cons, List.foldl_nil, applyFillEvent, calculatePnL]
    norm_num [rawBuyCost, rawBuyQty, List.filter_cons, List.filter_nil, hAc, hAc2]
  rw [hrun]
  have hAc : (Action.sell = Action.buy) = False := by simp
  have hAc2 : (Action.buy = Action.sell) = False := by simp
  simp only [totalBought, totalSold, boughtQty, soldQty, totalPnLFromFills, sellPnlContrib,
    totalProceedsOf, totalCostBasisOf, proceedsContrib, costContrib, List.map_cons, List.map_nil,
    List.sum_cons, List.sum_nil]
  norm_num [hAc, hAc2]

/-- C6 amended: the round-trip holds when every filled opening fill
precedes the first closing fill (no scale-in after a partial close): for
a position built from buys followed by sells, fully closed (total sell
quantity equals the positive total buy quantity), the aggregate P&L
(proceeds − cost basis) equals the sum over all closing fills of
`(sellPrice − runningAvgBuyPrice) × qty × 100`. -/
theorem pnl_roundtrip_amended (buys sells : List (Nat × ℚ))
    (hpos : 0 < (buys.map fun bp => (bp.1 : ℚ)).sum)
    (hclosed : (sells.map fun sp => (sp.1 : ℚ)).sum = (buys.map fun bp => (bp.1 : ℚ)).sum) :
    totalPnLFromFills (runFills []
        ((buys.map fun bp => FillEvent.buyFill bp.1 bp.2) ++
          (sells.map fun sp => FillEvent.sellFill sp.1 sp.2))) =
      totalProceedsOf (runFills []
        ((buys.map fun bp => FillEvent.buyFill bp.1 bp.2) ++
          (sells.map fun sp => FillEvent.sellFill sp.1 sp.2))) -
      totalCostBasisOf (runFills []
        ((buys.map fun bp => FillEvent.buyFill bp.1 bp.2) ++
          (sells.map fun sp => FillEvent.sellFill sp.1 sp.2))) := by
  have hne : (buys.map fun bp => (bp.1 : ℚ)).sum ≠ 0 := ne_of_gt hpos
  obtain ⟨h5, h4, h3⟩ := runFills_buy_sell_closed_aux buys sells
  rw [h5, h4, h3, hclosed, div_mul_cancel₀ _ hne]
  ring

theorem pnl_roundtrip_amended_witness :
    (0 : ℚ) < ([((10 : Nat), (3 : ℚ)), (10, 2)].map fun bp => (bp.1 : ℚ)).sum ∧
    (([((20 : Nat), (5 / 2 : ℚ))].map fun sp => (sp.1 : ℚ)).sum
      = ([((10 : Nat), (3 : ℚ)), (10, 2)].map fun bp => (bp.1 : ℚ)).sum) ∧
    totalPnLFromFills (runFills []
        (([((10 : Nat), (3 : ℚ)), (10, 2)].map fun bp => FillEvent.buyFill bp.1 bp.2) ++
          ([((20 : Nat), (5 / 2 : ℚ))].map fun sp => FillEvent.sellFill sp.1 sp.2))) =
      totalProceedsOf (runFills []
        (([((10 : Nat), (3 : ℚ)), (10, 2)].map fun bp => FillEvent.buyFill bp.1 bp.2) ++
          ([((20 : Nat), (5 / 2 : ℚ))].map fun sp => FillEvent.sellFill sp.1 sp.2))) -
      totalCostBasisOf (runFills []
        (([((10 : Nat), (3 : ℚ)), (10, 2)].map fun bp => FillEvent.buyFill bp.1 bp.2) ++
          ([((20 : Nat), (5 / 2 : ℚ))].map fun sp => FillEvent.sellFill sp.1 sp.2))) :=
  ⟨by norm_num, by norm_num,
    pnl_roundtrip_amended [(10, 3), (10, 2)] [(20, 5 / 2)] (by norm_num) (by norm_num)⟩

/-! ## Order placement: position creation and validation (C8, C10) -/

theorem placeOptionOrder_bto (db : TradingDB) (userId : Nat) (buyingPower : ℚ)
    (i : OrderInput) (hv : placeOrderSchemaValid i = true) (hs : i.side = .bto)
    (hbp : i.quantity * (i.limitPrice.getD 0) * 100 ≤ buyingPower) :
    placeOptionOrder db userId buyingPower i =
      ({ parentTrades := db.parentTrades ++
           [{ id := db.nextId, userId := userId, underlying := i.underlying,
              optionType := i.optionType, strike := i.strike, expiration := i.expiration }],
         trades := db.trades ++
           [{ id := db.nextId + 1, parentTradeId := db.nextId, action := .buy,
              quantity := i.quantity.num.toNat, status := .pending, source := .manual }],
         nextId := db.nextId + 2 }, .ok (db.nextId, db.nextId + 1)) := by
  simp only [placeOptionOrder, hv, Bool.true_eq_false, if_false, hs]
  rw [if_neg (not_lt.mpr hbp)]

/-- C8 counterexample: a second opening order for the exact same
instrument does not attach to the existing position — `placeOptionOrder`
creates a NEW parent trade on every BTO, so after two identical opens by
the same user there are two positions, each with its own child order,
rather than one position with two scale-in orders. -/
theorem scale_in_new_position_cex :
    (placeOptionOrder emptyDB 1 1000000 btoInput).1.parentTrades.length = 1 ∧
    (placeOptionOrder (placeOptionOrder emptyDB 1 1000000 btoInput).1
        1 1000000 btoInput).1.parentTrades.length = 2 ∧
    ((placeOptionOrder (placeOptionOrder emptyDB 1 1000000 btoInput).1
        1 1000000 btoInput).1.trades.map Trade.parentTradeId) = [0, 2] ∧
    (2 : Nat) ≠ 1 := by
  have hv : placeOrderSchemaValid btoInput = true := by decide
  have hbp : ¬ ((1000000 : ℚ) < btoInput.quantity * (btoInput.limitPrice.getD 0) * 100) := by
    norm_num [btoInput]
  have h1 : placeOptionOrder emptyDB 1 1000000 btoInput =
      ({ parentTrades := [{ id := 0, userId := 1, underlying := "AAPL",
                            optionType := .call, strike := 150,
                            expiration := "2024-01-19" }],
         trades := [{ id := 1, parentTradeId := 0, action := .buy,
                      quantity := 10, status := .pending, source := .manual }],
         nextId := 2 }, .ok (0, 1)) := by
    rw [placeOptionOrder_bto emptyDB 1 1000000 btoInput hv rfl (by norm_num [btoInput])]
    norm_num [emptyDB, btoInput]
    decide
  have h2 : placeOptionOrder (placeOptionOrder emptyDB 1 1000000 btoInput).1
      1 1000000 btoInput =
      ({ parentTrades := [{ id := 0, userId := 1, underlying := "AAPL",
                            optionType := .call, strike := 150,
                            expiration := "2024-01-19" },
                          { id := 2, userId := 1, underlying := "AAPL",
                            optionType := .call, strike := 150,
                            expiration := "2024-01-19" }],
         trades := [{ id := 1, parentTradeId := 0, action := .buy,
                      quantity := 10, status := .pending, source := .manual },
                    { id := 3, parentTradeId := 2, action := .buy,
                      quantity := 10, status := .pending, source := .manual }],
         nextId := 4 }, .ok (2, 3)) := by
    rw [h1]
    rw [placeOptionOrder_bto _ 1 1000000 btoInput hv rfl (by norm_num [btoInput])]
    norm_num [btoInput]
    decide
  rw [h2, h1]
  norm_num

/-- C8 amended: every accepted opening order creates its own NEW position:
for any valid BTO request with sufficient buying power,
`placeOptionOrder` appends a fresh parent trade in `open` status and one
pending opening order attached to that fresh parent — repeated opens for
the same instrument are not merged into an existing position. -/
theorem openPosition_amended (db : TradingDB) (userId : Nat) (buyingPower : ℚ)
    (i : OrderInput) (hv : placeOrderSchemaValid i = true) (hs : i.side = .bto)
    (hbp : i.quantity * (i.limitPrice.getD 0) * 100 ≤ buyingPower) :
    placeOptionOrder db userId buyingPower i =
      ({ parentTrades := db.parentTrades ++
           [{ id := db.nextId, userId := userId, underlying := i.underlying,
              optionType := i.optionType, strike := i.strike, expiration := i.expiration }],
         trades := db.trades ++
           [{ id := db.nextId + 1, parentTradeId := db.nextId, action := .buy,
              quantity := i.quantity.num.toNat, status := .pending, source := .manual }],
         nextId := db.nextId + 2 }, .ok (db.nextId, db.nextId + 1)) :=
  placeOptionOrder_bto db userId buyingPower i hv hs hbp

theorem openPosition_amended_witness :
    placeOptionOrder emptyDB 1 1000000 btoInput =
      ({ parentTrades := emptyDB.parentTrades ++
           [{ id := emptyDB.nextId, userId := 1, underlying := btoInput.underlying,
              optionType := btoInput.optionType, strike := btoInput.strike,
              expiration := btoInput.expiration }],
         trades := emptyDB.trades ++
           [{ id := emptyDB.nextId + 1, parentTradeId := emptyDB.nextId, action := .buy,
              quantity := btoInput.quantity.num.toNat, status := .pending, source := .manual }],
         nextId := emptyDB.nextId + 2 }, .ok (emptyDB.nextId, emptyDB.nextId + 1)) :=
  openPosition_amended emptyDB 1 1000000 btoInput (by decide) rfl (by norm_num [btoInput])

theorem placeOptionOrder_invalid (db : TradingDB) (userId : Nat) (buyingPower : ℚ)
    (i : OrderInput) (h : placeOrderSchemaValid i = false) :
    placeOptionOrder db userId buyingPower i = (db, .error .invalidParams) := by
  simp only [placeOptionOrder, h, if_true]

theorem valid_quantity_le (i : OrderInput) (hv : placeOrderSchemaValid i = true) :
    i.quantity.num.toNat ≤ 1000 := by
  unfold placeOrderSchemaValid at hv
  simp only [Bool.and_eq_true, decide_eq_true_eq] at hv
  have h1000 : i.quantity ≤ 1000 := hv.1.2
  have hden : i.quantity.den = 1 := hv.1.1.1.2
  have hq : (i.quantity.num : ℚ) = i.quantity := by
    conv_rhs => rw [← Rat.num_div_den i.quantity]
    rw [hden]
    norm_num
  have hcast : (i.quantity.num : ℚ) ≤ 1000 := by
    rw [hq]
    exact h1000
  have hnum : i.quantity.num ≤ 1000 := by exact_mod_cast hcast
  omega

theorem placeOptionOrder_new_trades (db : TradingDB) (userId : Nat) (buyingPower : ℚ)
    (i : OrderInput) :
    ∀ t ∈ (placeOptionOrder db userId buyingPower i).1.trades,
      t ∈ db.trades ∨
        (placeOrderSchemaValid i = true ∧ t.quantity = i.quantity.num.toNat) := by
  intro t ht
  by_cases hv : placeOrderSchemaValid i = false
  · rw [placeOptionOrder_invalid db userId buyingPower i hv] at ht
    exact Or.inl ht
  · have hv' : placeOrderSchemaValid i = true := by
      revert hv
      cases placeOrderSchemaValid i <;> simp
    simp only [placeOptionOrder, hv', Bool.true_eq_false, if_false] at ht
    split at ht
    · -- BTO path
      split at ht
      · exact Or.inl ht
      · simp only [List.mem_append, List.mem_singleton] at ht
        rcases ht with ht | ht
        · exact Or.inl ht
        · exact Or.inr ⟨hv', by rw [ht]⟩
    · -- STC path
      split at ht
      · exact Or.inl ht
      · split at ht
        · exact Or.inl ht
        · split at ht
          · exact Or.inl ht
          · split at ht
            · exact Or.inl ht
            · split at ht
              · exact Or.inl ht
              · simp only [List.mem_append, List.mem_singleton] at ht
                rcases ht with ht | ht
                · exact Or.inl ht
                · exact Or.inr ⟨hv', by rw [ht]⟩

/-- C10: `placeOrderSchema` enforces an upper bound of 1000 on quantity
not stated in the spec.  Any request whose quantity is above 1000,
non-positive, or not an integer fails validation: `placeOptionOrder`
returns the validation error and leaves the database untouched, and
consequently on every reachable database state every recorded order has
quantity at most 1000. -/
theorem quantity_bound_validated :
    (∀ (db : TradingDB) (userId : Nat) (buyingPower : ℚ) (i : OrderInput),
        placeOrderSchemaValid i = false →
        placeOptionOrder db userId buyingPower i = (db, .error .invalidParams)) ∧
    (∀ i : OrderInput, (1000 < i.quantity ∨ i.quantity ≤ 0 ∨ i.quantity.den ≠ 1) →
        placeOrderSchemaValid i = false) ∧
    (∀ db : TradingDB, DBReachable db → ∀ t ∈ db.trades, t.quantity ≤ 1000) := by
  refine ⟨placeOptionOrder_invalid, ?_, ?_⟩
  · intro i h
    unfold placeOrderSchemaValid
    rcases h with h | h | h
    · have hd : decide (i.quantity ≤ 1000) = false := by
        simp only [decide_eq_false_iff_not, not_le]
        exact h
      rw [hd]
      simp
    · have hd : decide (0 < i.quantity) = false := by
        simp only [decide_eq_false_iff_not, not_lt]
        exact h
      rw [hd]
      simp
    · have hd : decide (i.quantity.den = 1) = false := by
        simp only [decide_eq_false_iff_not]
        exact h
      rw [hd]
      simp
  · intro db hdb
    induction hdb with
    | nil => simp [emptyDB]
    | step userId buyingPower i hprev ih =>
      intro t ht
      rcases placeOptionOrder_new_trades _ userId buyingPower i t ht with hmem | ⟨hv, hq⟩
      · exact ih t hmem
      · rw [hq]
        exact valid_quantity_le i hv

theorem quantity_bound_witness :
    placeOptionOrder emptyDB 1 1000000 badInput = (emptyDB, .error .invalidParams) ∧
    placeOrderSchemaValid badInput = false ∧
    (∀ t ∈ emptyDB.trades, t.quantity ≤ 1000) :=
  ⟨quantity_bound_validated.1 emptyDB 1 1000000 badInput (by decide),
   quantity_bound_validated.2.1 badInput (Or.inl (by norm_num [badInput, btoInput])),
   quantity_bound_validated.2.2 emptyDB DBReachable.nil⟩

end Alertsify
